import Mathlib

/-!
Verification of the SkyPortal spectra listener (poll-dedup-normalize-classify
pipeline). The definitions below are a shallow embedding of the repository's
Python sources:

* `flux_zscore` and friends embed `execute_model.py`'s `flux_zscore`;
* `classes`, `softmax` and `classifySpectra` embed the classification tail of
  `execute_model.py`'s `process_spectra` (the ONNX network itself is an opaque
  external collaborator and is a function parameter `model`);
* `_load_existing_cache` / `_cache_spectra` embed the ledger helpers of
  `spectra_listener.py`;
* `processOne` / `processEach` / `runCycle` / `pollWindow` embed the body of
  `monitor_spectra`'s `while True` loop, and `SkyPortal_api` embeds the
  JSON-decoding tail of `api.py`'s `SkyPortal.api`.

Floating-point sample values are modelled as `Option ℚ`: `some q` is a finite
float of value `q`, `none` is a non-finite float (NaN or ±Infinity), which is
exactly the distinction `np.isfinite` tests.  The interpolation and the
mean/variance computations are exact rational arithmetic; the final z-score
division by the standard deviation and the softmax are over `ℝ`.
-/

namespace SkyportalListener

/-- Input to `flux_zscore`: the `wavelengths` and `fluxes` arrays of one
spectrum, elementwise `some q` (finite float) or `none` (NaN/Infinity). -/
structure Spectra where
  wavelengths : List (Option ℚ)
  fluxes : List (Option ℚ)

/-- The finite sample pairs, in input order.  Embeds
`mask = np.isfinite(wavelengths) & np.isfinite(fluxes)` followed by
`wavelengths[mask]`, `fluxes[mask]` (the two arrays have equal length when
this is reached, so masking both arrays is the same as masking the zip). -/
def cleanedPairs (sp : Spectra) : List (ℚ × ℚ) :=
  (sp.wavelengths.zip sp.fluxes).filterMap fun p =>
    match p with
    | (some w, some f) => some (w, f)
    | _ => none

/-- Comparison of sample pairs by wavelength, used by the sorting that
`scipy.interpolate.interp1d` performs internally (`assume_sorted=False`
argsorts the x array and permutes y accordingly). -/
def wlLE (p q : ℚ × ℚ) : Prop := p.1 ≤ q.1

instance : DecidableRel wlLE := fun p q => inferInstanceAs (Decidable (p.1 ≤ q.1))

instance : IsTotal (ℚ × ℚ) wlLE := ⟨fun a b => le_total a.1 b.1⟩

instance : IsTrans (ℚ × ℚ) wlLE := ⟨fun _ _ _ h h2 => le_trans h h2⟩

/-- Strict comparison of sample pairs by wavelength: the sortedness
hypothesis under which the wavelengths form a function domain. -/
def wlLT (p q : ℚ × ℚ) : Prop := p.1 < q.1

instance : DecidableRel wlLT := fun p q => inferInstanceAs (Decidable (p.1 < q.1))

instance : IsTrans (ℚ × ℚ) wlLT := ⟨fun _ _ _ h h2 => lt_trans h h2⟩

/-- The sample pairs sorted by wavelength, as `interp1d` sorts them before
interpolating. -/
def sortPairs (pts : List (ℚ × ℚ)) : List (ℚ × ℚ) :=
  List.insertionSort wlLE pts

/-- Piecewise-linear interpolation through a wavelength-sorted list of
sample points, evaluated at `t`: the value on the segment between the first
pair of consecutive knots `(x1,y1), (x2,y2)` with `t ≤ x2` is
`y1 + (y2 - y1) * (t - x1) / (x2 - x1)`.  Only meaningful for
`x_first ≤ t ≤ x_last`; out-of-range queries are handled by `interp1d`. -/
def interpSorted : List (ℚ × ℚ) → ℚ → ℚ
  | [], _ => 0
  | [p], _ => p.2
  | p :: q :: rest, t =>
    if t ≤ q.1 then p.2 + (q.2 - p.2) * (t - p.1) / (q.1 - p.1)
    else interpSorted (q :: rest) t

/-- Embeds `interp1d(x, y, kind='linear', bounds_error=False,
fill_value=(fillLo, fillHi))(t)`: sort the samples by wavelength, return
`fillLo` below the smallest knot, `fillHi` above the largest knot, and the
piecewise-linear interpolant in between. -/
def interp1d (pts : List (ℚ × ℚ)) (fillLo fillHi : ℚ) (t : ℚ) : ℚ :=
  if t < ((sortPairs pts).headD (0, 0)).1 then fillLo
  else if ((sortPairs pts).getLastD (0, 0)).1 < t then fillHi
  else interpSorted (sortPairs pts) t

/-- Embeds `np.linspace(a, b, n)`: `n` evenly spaced points from `a` to `b`
inclusive (`[a]` when `n = 1`, `[]` when `n = 0`). -/
def linspace (a b : ℚ) (n : ℕ) : List ℚ :=
  (List.range n).map fun k : ℕ =>
    if n ≤ 1 then a else a + (b - a) * (k : ℚ) / ((n : ℚ) - 1)

/-- The resampling stage of `flux_zscore` (everything up to and including
`ys = interp1d(...)(xs)`), returning the resampled vector `ys` or the
`ValueError` message raised.  The scale-normalization tail is `flux_zscore`
below; it is split off so that this stage stays computable.

Source, `execute_model.py`:
the length check raises `"Mismatched lengths between wavelengths and fluxes"`;
an all-non-finite input raises `"No finite values in spectrum"`; fewer than 2
surviving samples raise `"Too few data points after cleaning"`; otherwise
`xs = np.linspace(range[0], range[1], interp_length)` and
`ys = interp1d(wl_cleaned, fl_cleaned, kind='linear', bounds_error=False,
fill_value=(fluxes_cleaned[0], fluxes_cleaned[-1]))(xs)`.  Note that the two
fill values are the first and last cleaned flux in input order. -/
def flux_zscoreYs (sp : Spectra) (wavelength_range : ℚ × ℚ) (interp_length : ℕ) :
    Except String (List ℚ) :=
  if sp.wavelengths.length ≠ sp.fluxes.length then
    .error "Mismatched lengths between wavelengths and fluxes"
  else
    let cleaned := cleanedPairs sp
    if cleaned.length = 0 then .error "No finite values in spectrum"
    else if cleaned.length < 2 then .error "Too few data points after cleaning"
    else
      .ok ((linspace wavelength_range.1 wavelength_range.2 interp_length).map
        (interp1d cleaned (cleaned.headD (0, 0)).2 (cleaned.getLastD (0, 0)).2))

/-- `np.nanmean` of the resampled vector (which contains no non-finite
entries: the input samples are finite and the fill values are finite).  Mean
of the empty list is `0` by rational division-by-zero convention. -/
def listMean (l : List ℚ) : ℚ := l.sum / l.length

/-- Square of `np.nanstd` of the resampled vector: the population variance
`mean((y - mean(y))^2)`. -/
def listVar (l : List ℚ) : ℚ :=
  ((l.map fun y => (y - listMean l) ^ 2).sum) / l.length

/-- Embeds `flux_zscore(spectra, wavelength_range, interp_length)` in full:
resample, then `m, s = np.nanmean(ys), np.nanstd(ys)` and
`ys_norm = (ys - m) / s if s > 0 else np.zeros(interp_length)`.
Since `s = sqrt(listVar ys)`, the branch condition `s > 0` is exactly
`0 < listVar ys`. -/
noncomputable def flux_zscore (sp : Spectra) (wavelength_range : ℚ × ℚ)
    (interp_length : ℕ) : Except String (List ℝ) :=
  (flux_zscoreYs sp wavelength_range interp_length).map fun ys =>
    if 0 < listVar ys then
      ys.map fun y : ℚ =>
        ((y : ℝ) - ((listMean ys : ℚ) : ℝ)) / Real.sqrt ((listVar ys : ℚ) : ℝ)
    else
      List.replicate interp_length (0 : ℝ)

/-- Mean of a real vector (mean of the empty list is `0`). -/
noncomputable def listMeanR (l : List ℝ) : ℝ := l.sum / l.length

/-- Population variance of a real vector. -/
noncomputable def listVarR (l : List ℝ) : ℝ :=
  ((l.map fun y => (y - listMeanR l) ^ 2).sum) / l.length

/-- The fixed, ordered label list of `process_spectra` in
`execute_model.py`. -/
def classes : List String :=
  ["AGN", "Cataclysmic", "II", "IIP", "IIb", "IIn", "Ia", "Ib", "Ic",
   "Tidal Disruption Event"]

/-- Embeds `scipy.special.softmax` on the raw logit vector. -/
noncomputable def softmax (xs : List ℝ) : List ℝ :=
  xs.map fun x => Real.exp x / (xs.map Real.exp).sum

/-- The classification tail of `process_spectra`: run the opaque pretrained
network `model` on the normalized feature vector, apply softmax to the raw
logits and zip the result against the fixed label list
(`dict(zip(classes, onnx_probs_scipy.tolist()))`, modelled as the
association list in label order). -/
noncomputable def classifySpectra (model : List ℝ → List ℝ) (input : List ℝ) :
    List (String × ℝ) :=
  classes.zip (softmax (model input))

/-- A line of the on-disk cache file, modelled by how Python's `int()`
parses it: `intLine n` is a line holding the decimal representation of the
integer `n` (the only kind of line `_cache_spectra` ever writes, via
`f.write(f'{id}\x5cn')`), and `rawLine` is any other line, one that
`int(line)` rejects with a `ValueError`. -/
inductive CacheLine where
  | intLine (n : ℤ)
  | rawLine
deriving DecidableEq

/-- `int(line)` for one cache line. -/
def parseLine : CacheLine → Option ℤ
  | .intLine n => some n
  | .rawLine => none

/-- Embeds `[int(line) for line in f.read().splitlines()]`: parse every line,
propagating the `ValueError` that `int` raises on the first unparsable line.
The resulting list is read as a set (membership only), matching Python's
`set(...)`. -/
def parseLines : List CacheLine → Except String (List ℤ)
  | [] => .ok []
  | l :: rest =>
    match parseLine l with
    | none => .error "invalid literal for int() with base 10"
    | some n => (parseLines rest).map fun s => n :: s

/-- Embeds `_load_existing_cache`: the cache file is `none` when absent
(`FileNotFoundError` is caught and the empty set returned) and
`some lines` when present, in which case every line must parse as an
integer. -/
def _load_existing_cache (file : Option (List CacheLine)) : Except String (List ℤ) :=
  match file with
  | none => .ok []
  | some lines => parseLines lines

/-- Embeds `_cache_spectra(id, ...)`: reload the cache and append a line for
`id` only when `id` is not already present (opening in append mode creates
the file when absent).  An exception raised while reloading (corrupt file)
propagates to the caller. -/
def _cache_spectra (id : ℤ) (file : Option (List CacheLine)) :
    Except String (Option (List CacheLine)) :=
  match _load_existing_cache file with
  | .error e => .error e
  | .ok already =>
    if id ∈ already then .ok file
    else .ok (some (file.getD [] ++ [CacheLine.intLine id]))

/-- The mutable state of `monitor_spectra`'s loop: the on-disk cache file and
the in-memory `already_processed` set (modelled as a list read for
membership). -/
structure LoopState where
  cacheFile : Option (List CacheLine)
  already : List ℤ
deriving DecidableEq

/-- `already_processed.add(id)` on the in-memory set. -/
def insertId (l : List ℤ) (id : ℤ) : List ℤ :=
  if id ∈ l then l else l ++ [id]

/-- The log line `print(f'Error processing spectra {s["id"]}: {e}')`. -/
def errLog (id : ℤ) (e : String) : String :=
  "Error processing spectra " ++ toString id ++ ": " ++ e

/-- One iteration of the `for s in all_spectra` body of `monitor_spectra`.
`proc id` is the per-candidate work inside the `try` (detail fetch, status
check, `process_spectra`) whose outcome is opaque to the scheduler; on its
success the id is cached (when `use_cache`) and added to the in-memory set;
any exception — including one raised by `_cache_spectra` itself — is caught
and logged, leaving the state unchanged. -/
def processOne (proc : ℤ → Except String Unit) (use_cache : Bool)
    (st : LoopState) (id : ℤ) : LoopState × List String :=
  match proc id with
  | .error e => (st, [errLog id e])
  | .ok _ =>
    if use_cache then
      match _cache_spectra id st.cacheFile with
      | .error e => (st, [errLog id e])
      | .ok file2 => (⟨file2, insertId st.already id⟩, [])
    else (⟨st.cacheFile, insertId st.already id⟩, [])

/-- The whole `for s in all_spectra` loop, threading the state and collecting
the log lines. -/
def processEach (proc : ℤ → Except String Unit) (use_cache : Bool) :
    LoopState → List ℤ → LoopState × List String
  | st, [] => (st, [])
  | st, id :: rest =>
    let r1 := processOne proc use_cache st id
    let r2 := processEach proc use_cache r1.1 rest
    (r2.1, r1.2 ++ r2.2)

/-- The JSON-decoding tail of `SkyPortal.api` (`api.py`): `parsed` is the
result of `response.json()` (`none` when the body is not valid JSON), and an
unparsable body raises `ValueError(f'Error parsing JSON response: ...')`
instead of returning a status/body pair. -/
def SkyPortal_api {β : Type} (status : ℕ) (parsed : Option β) (rawText : String) :
    Except String (ℕ × β) :=
  match parsed with
  | none => .error ("Error parsing JSON response: " ++ rawText)
  | some b => .ok (status, b)

/-- The poll window computed at the top of each cycle of `monitor_spectra`
(time measured in days): `modified_before = datetime.now(timezone.utc)` and
`modified_after = modified_before - timedelta(days=1)`.  The `lookback`
parameter is accepted and validated by `monitor_spectra` but does not occur
in this computation. -/
def pollWindow (now : ℚ) (lookback : ℤ) : ℚ × ℚ :=
  (now - 1, now)

/-- The lookback value `main.py` passes to `monitor_spectra`. -/
def mainLookback : ℤ := 2

/-- One full cycle of the `while True` loop of `monitor_spectra`, from the
batch spectra query onwards.  `batch` is the outcome of
`client.get_spectra(instrument_ids=..., modified_after=..., ...)`: either a
`(status, data)` pair (with `data` reduced to the candidate id list) or a
raised exception.  A raised exception is not caught anywhere in the loop, so
it propagates (`Except.error`); a non-200 status is logged and the cycle
aborted (`time.sleep(10); continue`); otherwise candidates already in
`already_processed` are filtered out and the rest processed. -/
def runCycle (batch : Except String (ℕ × List ℤ)) (proc : ℤ → Except String Unit)
    (use_cache : Bool) (st : LoopState) : Except String (LoopState × List String) :=
  match batch with
  | .error e => .error e
  | .ok (status, ids) =>
    if status ≠ 200 then .ok (st, ["Error fetching spectra"])
    else
      let news := ids.filter fun i => decide (i ∉ st.already)
      .ok (processEach proc use_cache st news)

/-- Claim C4 as stated, at one input, as a boolean: every query point of the
resampling grid that lies outside the span of the cleaned wavelengths gets
the flux of the nearest boundary sample by wavelength (the sample of
minimal, resp. maximal, wavelength).  `true` vacuously when `flux_zscoreYs`
fails. -/
def flatExtrapClaim (sp : Spectra) (wavelength_range : ℚ × ℚ) (L : ℕ) : Bool :=
  match flux_zscoreYs sp wavelength_range L with
  | .error _ => true
  | .ok ys =>
    let sorted := sortPairs (cleanedPairs sp)
    let bLo := sorted.headD (0, 0)
    let bHi := sorted.getLastD (0, 0)
    (List.range L).all fun k =>
      let q := (linspace wavelength_range.1 wavelength_range.2 L).getD k 0
      decide (q < bLo.1 → ys.getD k 0 = bLo.2) &&
      decide (bHi.1 < q → ys.getD k 0 = bHi.2)

/-! ### Helper lemmas about the ledger embedding -/

theorem parseLines_error_of_raw {lines : List CacheLine}
    (h : CacheLine.rawLine ∈ lines) : ∃ e, parseLines lines = .error e := by
  induction lines with
  | nil => cases h
  | cons l rest ih =>
    cases l with
    | rawLine => exact ⟨_, rfl⟩
    | intLine n =>
      have hr : CacheLine.rawLine ∈ rest := by
        cases h with
        | tail _ h2 => exact h2
      obtain ⟨e, he⟩ := ih hr
      exact ⟨e, by simp [parseLines, parseLine, he, Except.map]⟩

theorem parseLines_append_int {lines : List CacheLine} {s : List ℤ} (id : ℤ)
    (h : parseLines lines = .ok s) :
    parseLines (lines ++ [CacheLine.intLine id]) = .ok (s ++ [id]) := by
  induction lines generalizing s with
  | nil =>
    simp only [parseLines] at h
    cases h
    rfl
  | cons l rest ih =>
    cases l with
    | rawLine => simp [parseLines, parseLine] at h
    | intLine n =>
      simp only [parseLines, parseLine] at h ⊢
      cases hr : parseLines rest with
      | error e => rw [hr] at h; cases h
      | ok t =>
        rw [hr] at h
        cases h
        simp [parseLines, parseLine, ih hr, Except.map]

theorem load_after_cache (id : ℤ) (file : Option (List CacheLine)) (s : List ℤ)
    (h : _load_existing_cache file = .ok s) :
    ∃ file2, _cache_spectra id file = .ok file2 ∧
      ∃ s2, _load_existing_cache file2 = .ok s2 ∧
        ∀ x : ℤ, x ∈ s2 ↔ (x ∈ s ∨ x = id) := by
  by_cases hmem : id ∈ s
  · refine ⟨file, by simp [_cache_spectra, h, hmem], s, h, fun x => ?_⟩
    constructor
    · exact fun hx => Or.inl hx
    · rintro (hx | rfl)
      · exact hx
      · exact hmem
  · refine ⟨some (file.getD [] ++ [CacheLine.intLine id]),
      by simp [_cache_spectra, h, hmem], ?_⟩
    cases file with
    | none =>
      simp only [_load_existing_cache] at h
      cases h
      exact ⟨[id], rfl, fun x => by simp⟩
    | some lines =>
      simp only [_load_existing_cache] at h ⊢
      refine ⟨s ++ [id], ?_, fun x => by simp⟩
      simpa using parseLines_append_int id h

theorem insertId_mem (l : List ℤ) (id x : ℤ) :
    x ∈ insertId l id ↔ x ∈ l ∨ x = id := by
  unfold insertId
  split
  · rename_i hmem
    constructor
    · exact fun hx => Or.inl hx
    · rintro (hx | rfl)
      · exact hx
      · exact hmem
  · simp

theorem processEach_spec (proc : ℤ → Except String Unit) (cands : List ℤ) :
    ∀ (st : LoopState) (s : List ℤ), _load_existing_cache st.cacheFile = .ok s →
    ∃ s2, _load_existing_cache (processEach proc true st cands).1.cacheFile = .ok s2 ∧
      (∀ x : ℤ, x ∈ s2 ↔ x ∈ s ∨ (x ∈ cands ∧ (proc x).isOk = true)) ∧
      (∀ x : ℤ, x ∈ (processEach proc true st cands).1.already ↔
        x ∈ st.already ∨ (x ∈ cands ∧ (proc x).isOk = true)) ∧
      (∀ x e, x ∈ cands → proc x = .error e →
        errLog x e ∈ (processEach proc true st cands).2) := by
  induction cands with
  | nil =>
    intro st s h
    exact ⟨s, by simpa [processEach] using h, fun x => by simp [processEach],
      fun x => by simp [processEach], fun x e hx => absurd hx (List.not_mem_nil x)⟩
  | cons id rest ih =>
    intro st s h
    cases hp : proc id with
    | error e0 =>
      have hone : processOne proc true st id = (st, [errLog id e0]) := by
        simp [processOne, hp]
      obtain ⟨s2, h2, hiff, hiffA, hlog⟩ := ih st s h
      have heach : processEach proc true st (id :: rest) =
          ((processEach proc true st rest).1,
            [errLog id e0] ++ (processEach proc true st rest).2) := by
        simp [processEach, hone]
      rw [heach]
      refine ⟨s2, h2, fun x => ?_, fun x => ?_, fun x e hx hxe => ?_⟩
      · rw [hiff]
        by_cases hxid : x = id
        · subst hxid
          simp [hp, Except.isOk, Except.toBool]
        · simp [List.mem_cons, hxid]
      · rw [hiffA]
        by_cases hxid : x = id
        · subst hxid
          simp [hp, Except.isOk, Except.toBool]
        · simp [List.mem_cons, hxid]
      · rcases List.mem_cons.mp hx with rfl | hx2
        · rw [hp] at hxe
          cases hxe
          exact List.mem_append_left _ (List.mem_singleton_self _)
        · exact List.mem_append_right _ (hlog x e hx2 hxe)
    | ok u =>
      obtain ⟨file2, hc, s1, hs1, hif1⟩ := load_after_cache id st.cacheFile s h
      have hone : processOne proc true st id =
          (⟨file2, insertId st.already id⟩, []) := by
        simp [processOne, hp, hc]
      obtain ⟨s2, h2, hiff, hiffA, hlog⟩ :=
        ih ⟨file2, insertId st.already id⟩ s1 hs1
      have heach : processEach proc true st (id :: rest) =
          ((processEach proc true ⟨file2, insertId st.already id⟩ rest).1,
            (processEach proc true ⟨file2, insertId st.already id⟩ rest).2) := by
        simp [processEach, hone]
      rw [heach]
      refine ⟨s2, h2, fun x => ?_, fun x => ?_, fun x e hx hxe => ?_⟩
      · rw [hiff, hif1 x]
        by_cases hxid : x = id
        · subst hxid
          simp [hp, Except.isOk, Except.toBool]
        · simp [List.mem_cons, hxid]
      · rw [hiffA]
        simp only [insertId_mem]
        by_cases hxid : x = id
        · subst hxid
          simp [hp, Except.isOk, Except.toBool]
        · simp [List.mem_cons, hxid]
      · rcases List.mem_cons.mp hx with rfl | hx2
        · rw [hp] at hxe
          cases hxe
        · exact hlog x e hx2 hxe

/-! ### Claim theorems -/

/-- C1 (code bug): `monitor_spectra`'s poll window always has width exactly
1 day, independently of the configured lookback; with the lookback value 2
that `main.py` configures, the window width differs from the configured
lookback, contradicting the documented meaning of the `lookback` parameter
("Number of days to look back for new spectra"). -/
theorem C1_poll_window_ignores_lookback :
    ∀ now : ℚ,
      (pollWindow now mainLookback).2 - (pollWindow now mainLookback).1 = 1 ∧
      (pollWindow now mainLookback).2 - (pollWindow now mainLookback).1 ≠
        (mainLookback : ℚ) := by
  intro now
  constructor
  · simp [pollWindow]
  · simp only [pollWindow, mainLookback]
    norm_num

/-- C2 (counterexample): a cycle in which the batch spectra query itself
raises — here because `SkyPortal.api` cannot parse the JSON response — is
not caught anywhere in `monitor_spectra`'s loop: the exception propagates
out of the cycle. -/
theorem C2_counterexample_batch_raise_escapes :
    (runCycle (SkyPortal_api 200 (none : Option (List ℤ)) "<html>")
      (fun _ => .ok ()) true ⟨none, []⟩).isOk = false := rfl

/-- C2 (amended): per-candidate exceptions are caught and logged and the
cycle always completes whenever the batch spectra query returns a parsed
`(status, data)` response (any status, 200 or not); but an exception raised
by the batch query itself (such as an unparsable JSON response) propagates
out of the loop uncaught. -/
theorem C2_cycle_error_containment :
    ∀ (proc : ℤ → Except String Unit) (uc : Bool) (st : LoopState),
      (∀ (status : ℕ) (ids : List ℤ),
        (runCycle (.ok (status, ids)) proc uc st).isOk = true) ∧
      (∀ e, runCycle (.error e) proc uc st = .error e) := by
  intro proc uc st
  refine ⟨fun status ids => ?_, fun e => rfl⟩
  by_cases hst : status ≠ 200 <;> simp [runCycle, hst, Except.isOk, Except.toBool]

/-- C5: an input whose arrays have equal length but in which fewer than 2
finite sample pairs survive the cleaning fails with one of the two
insufficient-data `ValueError`s, before any interpolation is attempted. -/
theorem C5_insufficient_data_fails (sp : Spectra) (wavelength_range : ℚ × ℚ)
    (L : ℕ) (hlen : sp.wavelengths.length = sp.fluxes.length)
    (hlt : (cleanedPairs sp).length < 2) :
    ∃ e, flux_zscoreYs sp wavelength_range L = .error e ∧
      flux_zscore sp wavelength_range L = .error e ∧
      (e = "No finite values in spectrum" ∨
        e = "Too few data points after cleaning") := by
  by_cases h0 : (cleanedPairs sp).length = 0
  · refine ⟨"No finite values in spectrum", ?_⟩
    have hys : flux_zscoreYs sp wavelength_range L =
        .error "No finite values in spectrum" := by
      simp [flux_zscoreYs, hlen, h0]
    exact ⟨hys, by simp [flux_zscore, hys, Except.map], Or.inl rfl⟩
  · refine ⟨"Too few data points after cleaning", ?_⟩
    have hys : flux_zscoreYs sp wavelength_range L =
        .error "Too few data points after cleaning" := by
      simp [flux_zscoreYs, hlen, h0, hlt]
    exact ⟨hys, by simp [flux_zscore, hys, Except.map], Or.inr rfl⟩

/-- C5 witness: a spectrum with one finite and one non-finite sample pair
fails. -/
theorem C5_witness :
    ∃ e, flux_zscoreYs ⟨[some 1, none], [some 2, some 3]⟩ (3850, 8500) 4650 = .error e ∧
      flux_zscore ⟨[some 1, none], [some 2, some 3]⟩ (3850, 8500) 4650 = .error e ∧
      (e = "No finite values in spectrum" ∨
        e = "Too few data points after cleaning") :=
  C5_insufficient_data_fails ⟨[some 1, none], [some 2, some 3]⟩ (3850, 8500) 4650
    (by decide) (by decide)

/-- C10: mismatched `wavelengths`/`fluxes` lengths are rejected with the
dedicated `ValueError` before any cleaning or interpolation. -/
theorem C10_mismatched_lengths_fail (sp : Spectra) (wavelength_range : ℚ × ℚ)
    (L : ℕ) (hlen : sp.wavelengths.length ≠ sp.fluxes.length) :
    flux_zscoreYs sp wavelength_range L =
      .error "Mismatched lengths between wavelengths and fluxes" ∧
    flux_zscore sp wavelength_range L =
      .error "Mismatched lengths between wavelengths and fluxes" := by
  have hys : flux_zscoreYs sp wavelength_range L =
      .error "Mismatched lengths between wavelengths and fluxes" := by
    simp [flux_zscoreYs, hlen]
  exact ⟨hys, by simp [flux_zscore, hys, Except.map]⟩

/-- C10 witness: one wavelength, zero fluxes. -/
theorem C10_witness :
    flux_zscoreYs ⟨[some 1], []⟩ (3850, 8500) 4650 =
      .error "Mismatched lengths between wavelengths and fluxes" ∧
    flux_zscore ⟨[some 1], []⟩ (3850, 8500) 4650 =
      .error "Mismatched lengths between wavelengths and fluxes" :=
  C10_mismatched_lengths_fail ⟨[some 1], []⟩ (3850, 8500) 4650 (by decide)

/-- C6: adding an id that is already present in the (well-formed) ledger
file is a no-op: the call succeeds, the file is unchanged (in particular no
duplicate line for the id is appended, and a file that held the id's line at
most once still does), and the id is still present on a fresh load. -/
theorem C6_cache_add_idempotent (id : ℤ) (file : Option (List CacheLine))
    (s : List ℤ) (hload : _load_existing_cache file = .ok s) (hmem : id ∈ s) :
    _cache_spectra id file = .ok file ∧
    (∀ file2, _cache_spectra id file = .ok file2 →
      ((file2.getD []).count (CacheLine.intLine id) =
        (file.getD []).count (CacheLine.intLine id) ∧
       ((file.getD []).count (CacheLine.intLine id) ≤ 1 →
        (file2.getD []).count (CacheLine.intLine id) ≤ 1))) ∧
    ∃ s2, _load_existing_cache file = .ok s2 ∧ id ∈ s2 := by
  have hnoop : _cache_spectra id file = .ok file := by
    simp [_cache_spectra, hload, hmem]
  refine ⟨hnoop, fun file2 h2 => ?_, s, hload, hmem⟩
  rw [hnoop] at h2
  cases h2
  exact ⟨rfl, fun h => h⟩

/-- C6 witness: adding 7 to a ledger file already holding 7. -/
theorem C6_witness :
    _cache_spectra 7 (some [CacheLine.intLine 7]) = .ok (some [CacheLine.intLine 7]) ∧
    (∀ file2, _cache_spectra 7 (some [CacheLine.intLine 7]) = .ok file2 →
      (((file2.getD []).count (CacheLine.intLine 7) =
        ((some [CacheLine.intLine 7]).getD []).count (CacheLine.intLine 7)) ∧
       (((some [CacheLine.intLine 7]).getD []).count (CacheLine.intLine 7) ≤ 1 →
        (file2.getD []).count (CacheLine.intLine 7) ≤ 1))) ∧
    ∃ s2, _load_existing_cache (some [CacheLine.intLine 7]) = .ok s2 ∧ 7 ∈ s2 :=
  C6_cache_add_idempotent 7 (some [CacheLine.intLine 7]) [7] rfl (by decide)

/-- C7: loading an absent ledger file yields the empty set; loading a file
containing an unparsable (non-integer) line raises rather than returning an
empty ledger; and loading a file populated with the identifiers 1, 2, 3
exposes exactly those identifiers (4 is absent). -/
theorem C7_load_semantics :
    _load_existing_cache none = .ok [] ∧
    (∀ lines : List CacheLine, CacheLine.rawLine ∈ lines →
      ∃ e, _load_existing_cache (some lines) = .error e) ∧
    (∃ s, _load_existing_cache
        (some [CacheLine.intLine 1, CacheLine.intLine 2, CacheLine.intLine 3]) =
        .ok s ∧ 1 ∈ s ∧ 2 ∈ s ∧ 3 ∈ s ∧ 4 ∉ s) := by
  refine ⟨rfl, fun lines h => parseLines_error_of_raw h, ⟨[1, 2, 3], rfl, ?_⟩⟩
  refine ⟨by decide, by decide, by decide, by decide⟩

/-- C7 witness: a file holding a single unparsable line fails to load. -/
theorem C7_witness :
    ∃ e, _load_existing_cache (some [CacheLine.rawLine]) = .error e :=
  C7_load_semantics.2.1 [CacheLine.rawLine] (by decide)

/-- C8: processing of a candidate batch isolates per-candidate failures:
for a well-formed ledger, every candidate whose processing raises is left
out of the in-memory set and of the on-disk ledger (if it was not already
there) and its error is logged, while every candidate whose processing
succeeds is marked in both. -/
theorem C8_failure_isolation (proc : ℤ → Except String Unit) (st : LoopState)
    (cands : List ℤ) (s : List ℤ)
    (hload : _load_existing_cache st.cacheFile = .ok s) :
    ∃ s2, _load_existing_cache (processEach proc true st cands).1.cacheFile = .ok s2 ∧
      (∀ x e, x ∈ cands → proc x = .error e →
        ((x ∉ st.already → x ∉ (processEach proc true st cands).1.already) ∧
         (x ∉ s → x ∉ s2) ∧
         errLog x e ∈ (processEach proc true st cands).2)) ∧
      (∀ x, x ∈ cands → (proc x).isOk = true →
        x ∈ (processEach proc true st cands).1.already ∧ x ∈ s2) := by
  obtain ⟨s2, h2, hiff, hiffA, hlog⟩ := processEach_spec proc cands st s hload
  refine ⟨s2, h2, fun x e hx hxe => ⟨?_, ?_, hlog x e hx hxe⟩,
    fun x hx hok => ⟨?_, ?_⟩⟩
  · intro hna hmem
    rcases (hiffA x).mp hmem with h | ⟨_, hok⟩
    · exact hna h
    · rw [hxe] at hok
      simp [Except.isOk, Except.toBool] at hok
  · intro hns hmem
    rcases (hiff x).mp hmem with h | ⟨_, hok⟩
    · exact hns h
    · rw [hxe] at hok
      simp [Except.isOk, Except.toBool] at hok
  · exact (hiffA x).mpr (Or.inr ⟨hx, hok⟩)
  · exact (hiff x).mpr (Or.inr ⟨hx, hok⟩)

/-- C8 witness: three candidates 1, 2, 3 where processing of 2 raises,
starting from an absent cache file and an empty in-memory set. -/
theorem C8_witness :
    ∃ s2, _load_existing_cache
        (processEach (fun id => if id = 2 then .error "boom" else .ok ()) true
          ⟨none, []⟩ [1, 2, 3]).1.cacheFile = .ok s2 ∧
      (∀ x e, x ∈ [(1 : ℤ), 2, 3] →
        (if x = 2 then Except.error "boom" else Except.ok ()) = .error e →
        ((x ∉ (⟨none, []⟩ : LoopState).already →
          x ∉ (processEach (fun id => if id = 2 then .error "boom" else .ok ()) true
            ⟨none, []⟩ [1, 2, 3]).1.already) ∧
         (x ∉ ([] : List ℤ) → x ∉ s2) ∧
         errLog x e ∈ (processEach (fun id => if id = 2 then .error "boom" else .ok ())
            true ⟨none, []⟩ [1, 2, 3]).2)) ∧
      (∀ x, x ∈ [(1 : ℤ), 2, 3] →
        ((if x = 2 then Except.error "boom" else Except.ok ()) : Except String Unit).isOk = true →
        x ∈ (processEach (fun id => if id = 2 then .error "boom" else .ok ()) true
          ⟨none, []⟩ [1, 2, 3]).1.already ∧ x ∈ s2) :=
  C8_failure_isolation (fun id => if id = 2 then .error "boom" else .ok ())
    ⟨none, []⟩ [1, 2, 3] [] rfl

/-! ### Helper lemmas for the normalizer (C3) -/

theorem length_linspace (a b : ℚ) (n : ℕ) : (linspace a b n).length = n := by
  rw [linspace, List.length_map, List.length_range]

theorem listVar_nil : listVar [] = 0 := by
  simp [listVar, listMean]

theorem ne_nil_of_listVar_pos {l : List ℚ} (h : 0 < listVar l) : l ≠ [] := by
  rintro rfl
  rw [listVar_nil] at h
  exact lt_irrefl 0 h

theorem sum_map_ratCast (l : List ℚ) (g : ℚ → ℚ) :
    (l.map fun y => ((g y : ℚ) : ℝ)).sum = (((l.map g).sum : ℚ) : ℝ) := by
  induction l with
  | nil => simp
  | cons a t ih => simp [ih]

theorem sum_map_div_real (l : List ℚ) (f : ℚ → ℝ) (c : ℝ) :
    (l.map fun y => f y / c).sum = (l.map f).sum / c := by
  induction l with
  | nil => simp
  | cons a t ih => simp [ih, add_div]

theorem sum_map_sub_real (l : List ℚ) (c : ℝ) :
    (l.map fun y : ℚ => (y : ℝ) - c).sum = ((l.sum : ℚ) : ℝ) - l.length * c := by
  induction l with
  | nil => simp
  | cons a t ih =>
    simp only [List.map_cons, List.sum_cons, List.length_cons, ih]
    push_cast
    ring

/-- Mean 0 and variance 1 of the z-scored vector, in exact arithmetic, when
the variance of the resampled vector is positive. -/
theorem zscore_stats {ys : List ℚ} (hv : 0 < listVar ys) :
    listMeanR (ys.map fun y : ℚ => ((y : ℝ) - ((listMean ys : ℚ) : ℝ)) /
      Real.sqrt ((listVar ys : ℚ) : ℝ)) = 0 ∧
    listVarR (ys.map fun y : ℚ => ((y : ℝ) - ((listMean ys : ℚ) : ℝ)) /
      Real.sqrt ((listVar ys : ℚ) : ℝ)) = 1 := by
  have hne : ys ≠ [] := ne_nil_of_listVar_pos hv
  have hlen0 : ys.length ≠ 0 := fun h => hne (List.eq_nil_of_length_eq_zero h)
  have hn : (0 : ℝ) < (ys.length : ℝ) := by
    exact_mod_cast Nat.pos_of_ne_zero hlen0
  have hnQ : ((ys.length : ℚ)) ≠ 0 := by exact_mod_cast hlen0
  have hv0 : (0 : ℝ) < ((listVar ys : ℚ) : ℝ) := by exact_mod_cast hv
  have hs : 0 < Real.sqrt ((listVar ys : ℚ) : ℝ) := Real.sqrt_pos.mpr hv0
  have hsum : (ys.map fun y : ℚ => (y : ℝ) - ((listMean ys : ℚ) : ℝ)).sum = 0 := by
    rw [sum_map_sub_real]
    have hm : ((listMean ys : ℚ) : ℝ) = ((ys.sum : ℚ) : ℝ) / (ys.length : ℝ) := by
      rw [listMean]
      push_cast
      ring
    rw [hm]
    field_simp
  have hout_sum : (ys.map fun y : ℚ => ((y : ℝ) - ((listMean ys : ℚ) : ℝ)) /
      Real.sqrt ((listVar ys : ℚ) : ℝ)).sum = 0 := by
    rw [sum_map_div_real, hsum, zero_div]
  have hmean0 : listMeanR (ys.map fun y : ℚ => ((y : ℝ) - ((listMean ys : ℚ) : ℝ)) /
      Real.sqrt ((listVar ys : ℚ) : ℝ)) = 0 := by
    rw [listMeanR, hout_sum, zero_div]
  refine ⟨hmean0, ?_⟩
  rw [listVarR, hmean0, List.map_map, List.length_map]
  have hcomp : ((fun z => (z - 0) ^ 2) ∘ fun y : ℚ =>
      ((y : ℝ) - ((listMean ys : ℚ) : ℝ)) / Real.sqrt ((listVar ys : ℚ) : ℝ)) =
      fun y : ℚ => ((y : ℝ) - ((listMean ys : ℚ) : ℝ)) ^ 2 / ((listVar ys : ℚ) : ℝ) := by
    funext y
    rw [Function.comp_apply, sub_zero, div_pow, Real.sq_sqrt hv0.le]
  rw [hcomp, sum_map_div_real]
  have hcast : (ys.map fun y : ℚ => ((y : ℝ) - ((listMean ys : ℚ) : ℝ)) ^ 2).sum =
      (((ys.map fun y => (y - listMean ys) ^ 2).sum : ℚ) : ℝ) := by
    have hfun : (fun y : ℚ => ((y : ℝ) - ((listMean ys : ℚ) : ℝ)) ^ 2) =
        fun y : ℚ => ((((y - listMean ys) ^ 2 : ℚ)) : ℝ) := by
      funext y
      push_cast
      ring
    rw [hfun, sum_map_ratCast ys (fun y => (y - listMean ys) ^ 2)]
  rw [hcast]
  have hQS : ((ys.map fun y => (y - listMean ys) ^ 2).sum : ℚ) =
      listVar ys * ys.length := by
    rw [listVar]
    field_simp
  rw [hQS]
  push_cast
  field_simp

theorem headD_mem {α : Type} (l : List α) (d : α) (h : l ≠ []) : l.headD d ∈ l := by
  cases l with
  | nil => exact absurd rfl h
  | cons a t => simp

theorem getLastD_mem {α : Type} : ∀ (l : List α) (d : α), l ≠ [] → l.getLastD d ∈ l
  | [a], d, _ => by simp
  | a :: b :: t, d, _ => by
    rw [List.getLastD_cons]
    exact List.mem_cons_of_mem a (getLastD_mem (b :: t) a (by simp))

theorem interpSorted_const : ∀ (pts : List (ℚ × ℚ)) (c t : ℚ), pts ≠ [] →
    (∀ p ∈ pts, p.2 = c) → interpSorted pts t = c
  | [], _, _, hne, _ => absurd rfl hne
  | [p], c, t, _, h => by
    simp only [interpSorted]
    exact h p (List.mem_singleton_self p)
  | p :: q :: rest, c, t, _, h => by
    simp only [interpSorted]
    split
    · rw [h p (by simp), h q (by simp)]
      simp
    · exact interpSorted_const (q :: rest) c t (by simp)
        fun x hx => h x (List.mem_cons_of_mem p hx)

theorem interp1d_const (pts : List (ℚ × ℚ)) (c fLo fHi t : ℚ) (hne : pts ≠ [])
    (h : ∀ p ∈ pts, p.2 = c) (hLo : fLo = c) (hHi : fHi = c) :
    interp1d pts fLo fHi t = c := by
  have hperm : List.Perm (List.insertionSort wlLE pts) pts :=
    List.perm_insertionSort wlLE pts
  have hmem : ∀ p ∈ sortPairs pts, p.2 = c := fun p hp =>
    h p (hperm.mem_iff.mp hp)
  have hsne : sortPairs pts ≠ [] := by
    intro hnil
    apply hne
    have hl := hperm.length_eq
    rw [show sortPairs pts = List.insertionSort wlLE pts from rfl] at hnil
    rw [hnil] at hl
    exact List.eq_nil_of_length_eq_zero hl.symm
  unfold interp1d
  split
  · exact hLo
  · split
    · exact hHi
    · exact interpSorted_const (sortPairs pts) c t hsne hmem

theorem listVar_of_all_eq {l : List ℚ} {c : ℚ} (h : ∀ y ∈ l, y = c) :
    listVar l = 0 := by
  rcases eq_or_ne l [] with rfl | hne
  · exact listVar_nil
  · have hlen0 : l.length ≠ 0 := fun h2 => hne (List.eq_nil_of_length_eq_zero h2)
    have hnQ : ((l.length : ℚ)) ≠ 0 := by exact_mod_cast hlen0
    have hmean : listMean l = c := by
      rw [listMean, List.sum_eq_card_nsmul l c h, nsmul_eq_mul]
      field_simp
    rw [listVar, List.sum_eq_zero, zero_div]
    intro x hx
    obtain ⟨y, hy, rfl⟩ := List.mem_map.mp hx
    rw [h y hy, hmean]
    ring

theorem cleanedPairs_snd_const {sp : Spectra} {c : ℚ}
    (hc : ∀ f ∈ sp.fluxes, f = some c) :
    ∀ p ∈ cleanedPairs sp, p.2 = c := by
  intro p hp
  obtain ⟨q, hq, hmatch⟩ := List.mem_filterMap.mp hp
  obtain ⟨ow, of⟩ := q
  have hof : of ∈ sp.fluxes := (List.of_mem_zip hq).2
  cases ow with
  | none => cases hmatch
  | some w =>
    cases of with
    | none => cases hmatch
    | some f =>
      have hfc : some f = some c := hc (some f) hof
      have hp2 : p = (w, f) := by
        have hsome : some (w, f) = some p := hmatch
        exact (Option.some.inj hsome).symm
      rw [hp2]
      exact Option.some.inj hfc

/-- C3: on every valid input (equal array lengths, at least 2 finite
sample pairs) the normalizer succeeds; its output has exactly length `L`;
when the resampled signal is non-constant (positive variance, i.e. `s > 0`)
the output has mean exactly 0 and variance exactly 1; and when the input
flux is constant (all entries finite with the same value) the output is the
all-zero vector of length `L` rather than a division error. -/
theorem C3_normalizer_output (sp : Spectra) (wavelength_range : ℚ × ℚ) (L : ℕ)
    (hlen : sp.wavelengths.length = sp.fluxes.length)
    (hcard : 2 ≤ (cleanedPairs sp).length) :
    ∃ ys out, flux_zscoreYs sp wavelength_range L = .ok ys ∧
      flux_zscore sp wavelength_range L = .ok out ∧
      out.length = L ∧
      (0 < listVar ys → listMeanR out = 0 ∧ listVarR out = 1) ∧
      (∀ c : ℚ, (∀ f ∈ sp.fluxes, f = some c) → out = List.replicate L 0) := by
  have h0 : ¬(cleanedPairs sp).length = 0 := by omega
  have h2 : ¬(cleanedPairs sp).length < 2 := by omega
  have hcne : cleanedPairs sp ≠ [] := fun h => h0 (by rw [h]; rfl)
  have hok : flux_zscoreYs sp wavelength_range L =
      .ok ((linspace wavelength_range.1 wavelength_range.2 L).map
        (interp1d (cleanedPairs sp) ((cleanedPairs sp).headD (0, 0)).2
          ((cleanedPairs sp).getLastD (0, 0)).2)) := by
    unfold flux_zscoreYs
    rw [if_neg (by simp [hlen]), if_neg h0, if_neg h2]
  set cleaned := cleanedPairs sp with hcl
  set ys := (linspace wavelength_range.1 wavelength_range.2 L).map
      (interp1d cleaned (cleaned.headD (0, 0)).2 (cleaned.getLastD (0, 0)).2)
    with hysdef
  set out := if 0 < listVar ys then
      ys.map fun y : ℚ => ((y : ℝ) - ((listMean ys : ℚ) : ℝ)) /
        Real.sqrt ((listVar ys : ℚ) : ℝ)
    else List.replicate L (0 : ℝ) with houtdef
  have hzok : flux_zscore sp wavelength_range L = .ok out := by
    rw [flux_zscore, hok]
    rfl
  refine ⟨ys, out, hok, hzok, ?_, ?_, ?_⟩
  · rw [houtdef]
    split
    · rw [List.length_map, hysdef, List.length_map, length_linspace]
    · simp
  · intro hv
    rw [houtdef, if_pos hv]
    exact zscore_stats hv
  · intro c hc
    have hpc : ∀ p ∈ cleaned, p.2 = c := cleanedPairs_snd_const hc
    have hyc : ∀ y ∈ ys, y = c := by
      intro y hy
      rw [hysdef] at hy
      obtain ⟨q, _, rfl⟩ := List.mem_map.mp hy
      exact interp1d_const cleaned c _ _ q hcne hpc
        (hpc _ (headD_mem cleaned (0, 0) hcne))
        (hpc _ (getLastD_mem cleaned (0, 0) hcne))
    have hvz : listVar ys = 0 := listVar_of_all_eq hyc
    rw [houtdef, if_neg (by rw [hvz]; exact lt_irrefl 0)]

/-- C3 witness: two finite samples, `L = 2`. -/
theorem C3_witness :
    ∃ ys out,
      flux_zscoreYs ⟨[some 4000, some 5000], [some 1, some 2]⟩ (3850, 8500) 2 = .ok ys ∧
      flux_zscore ⟨[some 4000, some 5000], [some 1, some 2]⟩ (3850, 8500) 2 = .ok out ∧
      out.length = 2 ∧
      (0 < listVar ys → listMeanR out = 0 ∧ listVarR out = 1) ∧
      (∀ c : ℚ,
        (∀ f ∈ (⟨[some 4000, some 5000], [some 1, some 2]⟩ : Spectra).fluxes, f = some c) →
        out = List.replicate 2 0) :=
  C3_normalizer_output ⟨[some 4000, some 5000], [some 1, some 2]⟩ (3850, 8500) 2
    rfl (by decide)

/-! ### Helper lemmas for the classifier adapter (C9) -/

theorem sum_map_div_gen {α : Type} (l : List α) (f : α → ℝ) (c : ℝ) :
    (l.map fun y => f y / c).sum = (l.map f).sum / c := by
  induction l with
  | nil => simp
  | cons a t ih => simp [ih, add_div]

theorem sum_map_exp_pos (xs : List ℝ) (hne : xs ≠ []) :
    0 < (xs.map Real.exp).sum := by
  apply List.sum_pos
  · intro x hx
    obtain ⟨y, _, rfl⟩ := List.mem_map.mp hx
    exact Real.exp_pos y
  · simp [hne]

theorem softmax_sum_one (xs : List ℝ) (hne : xs ≠ []) : (softmax xs).sum = 1 := by
  unfold softmax
  rw [sum_map_div_gen]
  exact div_self (ne_of_gt (sum_map_exp_pos xs hne))

theorem softmax_nonneg (xs : List ℝ) : ∀ p ∈ softmax xs, 0 ≤ p := by
  intro p hp
  obtain ⟨y, hy, rfl⟩ := List.mem_map.mp hp
  have hne : xs ≠ [] := by
    rintro rfl
    cases hy
  exact le_of_lt (div_pos (Real.exp_pos y) (sum_map_exp_pos xs hne))

/-- C9: whenever the opaque network returns raw logits for the 10 classes,
the classification result is an association list over exactly the fixed,
ordered 10-element label set, its probability column is the softmax of the
raw logits, and the probabilities are non-negative and sum to exactly 1. -/
theorem C9_classifier_distribution (model : List ℝ → List ℝ) (input : List ℝ)
    (hlen10 : (model input).length = 10) :
    (classifySpectra model input).map Prod.fst = classes ∧
    classes.length = 10 ∧
    (classifySpectra model input).map Prod.snd = softmax (model input) ∧
    (∀ p ∈ (classifySpectra model input).map Prod.snd, 0 ≤ p) ∧
    ((classifySpectra model input).map Prod.snd).sum = 1 := by
  have hclen : classes.length = 10 := rfl
  have hslen : (softmax (model input)).length = 10 := by
    unfold softmax
    rw [List.length_map, hlen10]
  have hfst : (classifySpectra model input).map Prod.fst = classes := by
    unfold classifySpectra
    exact List.map_fst_zip classes (softmax (model input)) (by rw [hslen, hclen])
  have hsnd : (classifySpectra model input).map Prod.snd = softmax (model input) := by
    unfold classifySpectra
    exact List.map_snd_zip classes (softmax (model input)) (by rw [hslen, hclen])
  have hne : model input ≠ [] := by
    intro h
    rw [h] at hlen10
    cases hlen10
  refine ⟨hfst, hclen, hsnd, ?_, ?_⟩
  · rw [hsnd]
    exact softmax_nonneg (model input)
  · rw [hsnd]
    exact softmax_sum_one (model input) hne

/-- C9 witness: a constant network producing 10 zero logits on the empty
feature vector. -/
theorem C9_witness :
    (classifySpectra (fun _ => List.replicate 10 0) []).map Prod.fst = classes ∧
    classes.length = 10 ∧
    (classifySpectra (fun _ => List.replicate 10 0) []).map Prod.snd =
      softmax ((fun _ : List ℝ => List.replicate 10 (0 : ℝ)) []) ∧
    (∀ p ∈ (classifySpectra (fun _ => List.replicate 10 0) []).map Prod.snd, 0 ≤ p) ∧
    ((classifySpectra (fun _ => List.replicate 10 0) []).map Prod.snd).sum = 1 :=
  C9_classifier_distribution (fun _ => List.replicate 10 0) [] (by simp)

/-! ### Helper lemmas for the resampling semantics (C4) -/

theorem getD_mem_of_lt {α : Type} :
    ∀ (l : List α) (n : ℕ) (d : α), n < l.length → l.getD n d ∈ l
  | [], n, d, h => by simp at h
  | a :: t, 0, d, _ => by simp
  | a :: t, n + 1, d, h => by
    rw [List.getD_cons_succ]
    exact List.mem_cons_of_mem a (getD_mem_of_lt t n d (by simpa using h))

theorem sortPairs_eq_self_of_sorted {pts : List (ℚ × ℚ)} (h : pts.Chain' wlLT) :
    sortPairs pts = pts := by
  have hpw : pts.Pairwise wlLT := List.chain'_iff_pairwise.mp h
  have hs : List.Sorted wlLE pts := hpw.imp fun hlt => le_of_lt hlt
  exact List.Sorted.insertionSort_eq hs

theorem pairwise_headD_le {pts : List (ℚ × ℚ)} (h : pts.Pairwise wlLT) :
    ∀ p ∈ pts, (pts.headD (0, 0)).1 ≤ p.1 := by
  cases pts with
  | nil => intro p hp; cases hp
  | cons a t =>
    intro p hp
    rcases List.mem_cons.mp hp with rfl | hpt
    · simp
    · exact le_of_lt ((List.pairwise_cons.mp h).1 p hpt)

theorem pairwise_le_getLastD {pts : List (ℚ × ℚ)} :
    ∀ d : ℚ × ℚ, pts.Pairwise wlLT → ∀ p ∈ pts, p.1 ≤ (pts.getLastD d).1 := by
  induction pts with
  | nil => intro d _ p hp; cases hp
  | cons a t ih =>
    intro d h p hp
    rw [List.getLastD_cons]
    rcases List.mem_cons.mp hp with rfl | hpt
    · rcases eq_or_ne t [] with rfl | htne
      · simp
      · exact le_of_lt ((List.pairwise_cons.mp h).1 _ (getLastD_mem t p htne))
    · exact ih a (List.pairwise_cons.mp h).2 p hpt

theorem interpSorted_bracket :
    ∀ (pts : List (ℚ × ℚ)) (i : ℕ) (t : ℚ),
      pts.Chain' wlLT → i + 1 < pts.length →
      (pts.getD i (0, 0)).1 ≤ t → t ≤ (pts.getD (i + 1) (0, 0)).1 →
      interpSorted pts t =
        (pts.getD i (0, 0)).2 +
          ((pts.getD (i + 1) (0, 0)).2 - (pts.getD i (0, 0)).2) *
            (t - (pts.getD i (0, 0)).1) /
            ((pts.getD (i + 1) (0, 0)).1 - (pts.getD i (0, 0)).1)
  | [], i, t, _, hlen, _, _ => by simp at hlen
  | [p], i, t, _, hlen, _, _ => by simp at hlen
  | a :: b :: rest, 0, t, hch, _, h1, h2 => by
    simp only [List.getD_cons_zero, List.getD_cons_succ] at h1 h2 ⊢
    simp only [interpSorted]
    rw [if_pos h2]
  | a :: b :: rest, i + 1, t, hch, hlen, h1, h2 => by
    have hab : wlLT a b := (List.chain'_cons.mp hch).1
    have htail : (b :: rest).Chain' wlLT := (List.chain'_cons.mp hch).2
    simp only [List.getD_cons_succ] at h1 h2 ⊢
    by_cases hbt : t ≤ b.1
    · cases i with
      | zero =>
        simp only [List.getD_cons_zero, List.getD_cons_succ] at h1 h2 ⊢
        have ht : t = b.1 := le_antisymm hbt h1
        simp only [interpSorted]
        rw [if_pos hbt, ht, sub_self, mul_zero, zero_div, add_zero,
          mul_div_assoc, div_self (sub_ne_zero.mpr (ne_of_gt hab)), mul_one]
        ring
      | succ j =>
        exfalso
        have hpw : (b :: rest).Pairwise wlLT := List.chain'_iff_pairwise.mp htail
        have hmem : (b :: rest).getD (j + 1) (0, 0) ∈ rest := by
          rw [List.getD_cons_succ]
          exact getD_mem_of_lt rest j (0, 0) (by simp at hlen; omega)
        have hlt : wlLT b ((b :: rest).getD (j + 1) (0, 0)) :=
          (List.pairwise_cons.mp hpw).1 _ hmem
        exact lt_irrefl b.1 (lt_of_lt_of_le hlt (le_trans h1 hbt))
    · simp only [interpSorted]
      rw [if_neg hbt]
      exact interpSorted_bracket (b :: rest) i t htail (by simp at hlen ⊢; omega) h1 h2

theorem flux_zscoreYs_ok (sp : Spectra) (wavelength_range : ℚ × ℚ) (L : ℕ)
    (hlen : sp.wavelengths.length = sp.fluxes.length)
    (hcard : 2 ≤ (cleanedPairs sp).length) :
    flux_zscoreYs sp wavelength_range L = .ok
      ((linspace wavelength_range.1 wavelength_range.2 L).map
        (interp1d (cleanedPairs sp) ((cleanedPairs sp).headD (0, 0)).2
          ((cleanedPairs sp).getLastD (0, 0)).2)) := by
  have h0 : ¬(cleanedPairs sp).length = 0 := by omega
  have h2 : ¬(cleanedPairs sp).length < 2 := by omega
  unfold flux_zscoreYs
  rw [if_neg (by simp [hlen]), if_neg h0, if_neg h2]

/-- C4 (counterexample): claim C4 as stated fails on an input that is not
sorted by wavelength.  With wavelengths `[5000, 4000]` and fluxes `[1, 2]`
the query point 3850 lies below the wavelength span `[4000, 5000]`, the
nearest boundary sample by wavelength is `(4000, 2)`, but the resampled
value is `1`: the fill values are `fluxes_cleaned[0]`/`fluxes_cleaned[-1]`
in original input order, not the fluxes at the extreme wavelengths. -/
theorem C4_counterexample_unsorted_fill :
    flatExtrapClaim ⟨[some 5000, some 4000], [some 1, some 2]⟩ (3850, 8500) 1 =
      false := by decide

/-- C4 (amended): when the cleaned samples are sorted strictly increasing by
wavelength (for unsorted input the flat-extrapolation values are instead the
first/last flux in input order, see the counterexample), the normalizer
resamples onto the `L` evenly spaced query points: the head sample has the
minimal and the last sample the maximal wavelength; each query point below
the wavelength span resamples to the flux of the minimal-wavelength sample
and each one above the span to the flux of the maximal-wavelength sample
(flat extrapolation, not linear); and each query point bracketed by two
consecutive samples resamples to the linear interpolation between those two
samples. -/
theorem C4_resampling_semantics (sp : Spectra) (wavelength_range : ℚ × ℚ)
    (L : ℕ) (hlen : sp.wavelengths.length = sp.fluxes.length)
    (hcard : 2 ≤ (cleanedPairs sp).length)
    (hsort : (cleanedPairs sp).Chain' wlLT) :
    ∃ ys, flux_zscoreYs sp wavelength_range L = .ok ys ∧ ys.length = L ∧
      (∀ p ∈ cleanedPairs sp,
        ((cleanedPairs sp).headD (0, 0)).1 ≤ p.1 ∧
        p.1 ≤ ((cleanedPairs sp).getLastD (0, 0)).1) ∧
      ∀ k, k < L →
        ((linspace wavelength_range.1 wavelength_range.2 L).getD k 0 <
            ((cleanedPairs sp).headD (0, 0)).1 →
          ys.getD k 0 = ((cleanedPairs sp).headD (0, 0)).2) ∧
        (((cleanedPairs sp).getLastD (0, 0)).1 <
            (linspace wavelength_range.1 wavelength_range.2 L).getD k 0 →
          ys.getD k 0 = ((cleanedPairs sp).getLastD (0, 0)).2) ∧
        (∀ i, i + 1 < (cleanedPairs sp).length →
          ((cleanedPairs sp).getD i (0, 0)).1 ≤
            (linspace wavelength_range.1 wavelength_range.2 L).getD k 0 →
          (linspace wavelength_range.1 wavelength_range.2 L).getD k 0 ≤
            ((cleanedPairs sp).getD (i + 1) (0, 0)).1 →
          ys.getD k 0 =
            ((cleanedPairs sp).getD i (0, 0)).2 +
              (((cleanedPairs sp).getD (i + 1) (0, 0)).2 -
                  ((cleanedPairs sp).getD i (0, 0)).2) *
                ((linspace wavelength_range.1 wavelength_range.2 L).getD k 0 -
                  ((cleanedPairs sp).getD i (0, 0)).1) /
                (((cleanedPairs sp).getD (i + 1) (0, 0)).1 -
                  ((cleanedPairs sp).getD i (0, 0)).1)) := by
  have hcne : cleanedPairs sp ≠ [] := by
    intro h
    rw [h] at hcard
    simp at hcard
  have hpw : (cleanedPairs sp).Pairwise wlLT := List.chain'_iff_pairwise.mp hsort
  have hsortid : sortPairs (cleanedPairs sp) = cleanedPairs sp :=
    sortPairs_eq_self_of_sorted hsort
  refine ⟨_, flux_zscoreYs_ok sp wavelength_range L hlen hcard,
    by rw [List.length_map, length_linspace], fun p hp =>
      ⟨pairwise_headD_le hpw p hp, pairwise_le_getLastD (0, 0) hpw p hp⟩,
    fun k hk => ?_⟩
  have hk2 : k < (linspace wavelength_range.1 wavelength_range.2 L).length := by
    rw [length_linspace]
    exact hk
  have hysk : ((linspace wavelength_range.1 wavelength_range.2 L).map
      (interp1d (cleanedPairs sp) ((cleanedPairs sp).headD (0, 0)).2
        ((cleanedPairs sp).getLastD (0, 0)).2)).getD k 0 =
      interp1d (cleanedPairs sp) ((cleanedPairs sp).headD (0, 0)).2
        ((cleanedPairs sp).getLastD (0, 0)).2
        ((linspace wavelength_range.1 wavelength_range.2 L).getD k 0) := by
    rw [List.getD_eq_getElem?_getD, List.getElem?_map,
      List.getElem?_eq_getElem hk2, List.getD_eq_getElem?_getD,
      List.getElem?_eq_getElem hk2]
    rfl
  rw [hysk]
  refine ⟨?_, ?_, ?_⟩
  · intro hq
    unfold interp1d
    rw [hsortid, if_pos hq]
  · intro hq
    have hhl : ((cleanedPairs sp).headD (0, 0)).1 ≤
        ((cleanedPairs sp).getLastD (0, 0)).1 :=
      pairwise_headD_le hpw _ (getLastD_mem _ _ hcne)
    unfold interp1d
    rw [hsortid, if_neg (not_lt.mpr (le_of_lt (lt_of_le_of_lt hhl hq))),
      if_pos hq]
  · intro i hi h1 h2
    have hmi : (cleanedPairs sp).getD i (0, 0) ∈ cleanedPairs sp :=
      getD_mem_of_lt _ i _ (by omega)
    have hmi2 : (cleanedPairs sp).getD (i + 1) (0, 0) ∈ cleanedPairs sp :=
      getD_mem_of_lt _ (i + 1) _ hi
    have hq1 : ¬(linspace wavelength_range.1 wavelength_range.2 L).getD k 0 <
        ((cleanedPairs sp).headD (0, 0)).1 :=
      not_lt.mpr (le_trans (pairwise_headD_le hpw _ hmi) h1)
    have hq2 : ¬((cleanedPairs sp).getLastD (0, 0)).1 <
        (linspace wavelength_range.1 wavelength_range.2 L).getD k 0 :=
      not_lt.mpr (le_trans h2 (pairwise_le_getLastD (0, 0) hpw _ hmi2))
    unfold interp1d
    rw [hsortid, if_neg hq1, if_neg hq2]
    exact interpSorted_bracket (cleanedPairs sp) i _ hsort hi h1 h2

/-- C4 witness: three samples sorted by wavelength, `L = 3` (the spec's
end-to-end scenario shape). -/
theorem C4_witness :
    ∃ ys, flux_zscoreYs ⟨[some 4000, some 5000, some 6000],
        [some 1, some 2, some 1]⟩ (3850, 8500) 3 = .ok ys ∧ ys.length = 3 ∧
      (∀ p ∈ cleanedPairs ⟨[some 4000, some 5000, some 6000],
          [some 1, some 2, some 1]⟩,
        ((cleanedPairs ⟨[some 4000, some 5000, some 6000],
          [some 1, some 2, some 1]⟩).headD (0, 0)).1 ≤ p.1 ∧
        p.1 ≤ ((cleanedPairs ⟨[some 4000, some 5000, some 6000],
          [some 1, some 2, some 1]⟩).getLastD (0, 0)).1) ∧
      ∀ k, k < 3 →
        ((linspace 3850 8500 3).getD k 0 <
            ((cleanedPairs ⟨[some 4000, some 5000, some 6000],
              [some 1, some 2, some 1]⟩).headD (0, 0)).1 →
          ys.getD k 0 = ((cleanedPairs ⟨[some 4000, some 5000, some 6000],
            [some 1, some 2, some 1]⟩).headD (0, 0)).2) ∧
        (((cleanedPairs ⟨[some 4000, some 5000, some 6000],
            [some 1, some 2, some 1]⟩).getLastD (0, 0)).1 <
            (linspace 3850 8500 3).getD k 0 →
          ys.getD k 0 = ((cleanedPairs ⟨[some 4000, some 5000, some 6000],
            [some 1, some 2, some 1]⟩).getLastD (0, 0)).2) ∧
        (∀ i, i + 1 < (cleanedPairs ⟨[some 4000, some 5000, some 6000],
            [some 1, some 2, some 1]⟩).length →
          ((cleanedPairs ⟨[some 4000, some 5000, some 6000],
            [some 1, some 2, some 1]⟩).getD i (0, 0)).1 ≤
            (linspace 3850 8500 3).getD k 0 →
          (linspace 3850 8500 3).getD k 0 ≤
            ((cleanedPairs ⟨[some 4000, some 5000, some 6000],
              [some 1, some 2, some 1]⟩).getD (i + 1) (0, 0)).1 →
          ys.getD k 0 =
            ((cleanedPairs ⟨[some 4000, some 5000, some 6000],
              [some 1, some 2, some 1]⟩).getD i (0, 0)).2 +
              (((cleanedPairs ⟨[some 4000, some 5000, some 6000],
                  [some 1, some 2, some 1]⟩).getD (i + 1) (0, 0)).2 -
                  ((cleanedPairs ⟨[some 4000, some 5000, some 6000],
                    [some 1, some 2, some 1]⟩).getD i (0, 0)).2) *
                ((linspace 3850 8500 3).getD k 0 -
                  ((cleanedPairs ⟨[some 4000, some 5000, some 6000],
                    [some 1, some 2, some 1]⟩).getD i (0, 0)).1) /
                (((cleanedPairs ⟨[some 4000, some 5000, some 6000],
                    [some 1, some 2, some 1]⟩).getD (i + 1) (0, 0)).1 -
                  ((cleanedPairs ⟨[some 4000, some 5000, some 6000],
                    [some 1, some 2, some 1]⟩).getD i (0, 0)).1)) :=
  C4_resampling_semantics ⟨[some 4000, some 5000, some 6000],
    [some 1, some 2, some 1]⟩ (3850, 8500) 3 rfl (by decide)
    (by
      have hcp : cleanedPairs ⟨[some 4000, some 5000, some 6000],
          [some 1, some 2, some 1]⟩ = [(4000, 1), (5000, 2), (6000, 1)] := rfl
      rw [hcp]
      norm_num [List.chain'_cons, List.chain'_singleton, wlLT])

end SkyportalListener
